import Mathlib

/-!
Verification of the OpenFisca-MCP situation-validation and error-normalization
core (files `openfisca_mcp/errors.py`, `openfisca_mcp/client.py`,
`openfisca_mcp/server.py`) against its natural-language specification.

Modelling conventions (shallow embedding of the Python code):
* JSON values are modelled by `JsonVal`; Python dicts become association
  lists in insertion order (JSON object keys are unique, and `dict` lookup
  matches first-occurrence lookup), numbers are modelled as integers.
* Python exceptions other than the repository's `MCPError` taxonomy are
  modelled as `Except.error` / `PyResult.pyExc` carrying a string that
  describes the exception (e.g. "KeyError: 'key'"); the exact description
  text is a modelling convention, what matters is which inputs raise.
* Python `set` values used only for membership tests are modelled as lists.
* The HTTP layer is abstracted: each client operation takes the outcome of
  its single HTTP attempt (`HttpAttempt`) as an argument.
-/

namespace OFMCP

/-- A JSON-like Python value (dicts as insertion-ordered association lists,
numbers as integers). -/
inductive JsonVal where
  | null : JsonVal
  | bool (b : Bool) : JsonVal
  | num (n : Int) : JsonVal
  | str (s : String) : JsonVal
  | list (items : List JsonVal) : JsonVal
  | obj (fields : List (String × JsonVal)) : JsonVal

/-- Python truthiness (`if x:`) of a JSON-like value. -/
def pyTruthy : JsonVal → Bool
  | .null => false
  | .bool b => b
  | .num n => n != 0
  | .str s => !(s == "")
  | .list items => !items.isEmpty
  | .obj fields => !fields.isEmpty

/-- Whether a Python value is hashable (scalars are, lists and dicts are not). -/
def hashable : JsonVal → Bool
  | .list _ => false
  | .obj _ => false
  | _ => true

/-- The Python type name of a value, as it appears in exception messages. -/
def pyTypeName : JsonVal → String
  | .null => "NoneType"
  | .bool _ => "bool"
  | .num _ => "int"
  | .str _ => "str"
  | .list _ => "list"
  | .obj _ => "dict"

/-- Join rendered pieces with ", " (Python's container-repr separator). -/
def commaSep : List String → String
  | [] => ""
  | [x] => x
  | x :: xs => x ++ ", " ++ commaSep xs

/-- Python `repr` of a JSON-like value (quote-escaping corner cases of
string repr are out of modelled scope; containers render their elements
in Python's bracketed notation, braces written via escapes). -/
def pyRepr : JsonVal → String
  | .null => "None"
  | .bool true => "True"
  | .bool false => "False"
  | .num n => toString n
  | .str s => "'" ++ s ++ "'"
  | .list items => "[" ++ commaSep (items.attach.map (fun x => pyRepr x.1)) ++ "]"
  | .obj fields =>
      "\x7b" ++ commaSep (fields.attach.map (fun x => "'" ++ x.1.1 ++ "': " ++ pyRepr x.1.2)) ++ "\x7d"
decreasing_by
  · have := List.sizeOf_lt_of_mem x.2
    simp only [JsonVal.list.sizeOf_spec]
    omega
  · have h := List.sizeOf_lt_of_mem x.2
    have h2 : sizeOf x.1.2 ≤ sizeOf x.1 := by
      obtain ⟨a, b⟩ := x.1
      simp only [Prod.mk.sizeOf_spec]
      omega
    simp only [JsonVal.obj.sizeOf_spec]
    omega

/-- Python `str` of a JSON-like value (as used by f-string interpolation). -/
def pyStr : JsonVal → String
  | .str s => s
  | v => pyRepr v

/-- `d.get(k, default)` on a Python dict. -/
def lookupD (kvs : List (String × JsonVal)) (k : String) (dflt : JsonVal) : JsonVal :=
  (List.lookup k kvs).getD dflt

/-- Python `"/" in k` for the single-character needle used by the code. -/
def hasSlash (s : String) : Bool :=
  s.data.any (fun c => c == '/')

/-- Python `==` between a `str` and an arbitrary value (used for role-plural
set membership, where the probe is always a string): equal only to an equal
string, `False` against any other type. -/
def strEqVal (k : String) : JsonVal → Bool
  | .str s => k == s
  | _ => false

/-! ## errors.py — the Tool Error taxonomy -/

/-- `MCPError` (errors.py): kind tag, message, status code, details mapping,
suggestion list, after the constructor's `or`-defaults have been applied. -/
structure MCPError where
  error_type : String
  message : String
  code : Int
  details : List (String × JsonVal)
  suggestions : List String

/-- `MCPError.to_dict` (errors.py): the fixed nested serialization shape. -/
def MCPError.to_dict (e : MCPError) : JsonVal :=
  .obj [("error", .obj
    [ ("type", .str e.error_type)
    , ("code", .num e.code)
    , ("message", .str e.message)
    , ("details", .obj e.details)
    , ("suggestions", .list (e.suggestions.map .str))
    ])]

/-- `ValidationError` (errors.py): kind "validation_error", code 400,
`details or {}`, `suggestions or []`. -/
def ValidationError (message : String) (details : Option (List (String × JsonVal)))
    (suggestions : Option (List String)) : MCPError :=
  ⟨"validation_error", message, 400, details.getD [], suggestions.getD []⟩

/-- `NotFoundError` (errors.py): kind "not_found_error", code 404. -/
def NotFoundError (message : String) (details : Option (List (String × JsonVal)))
    (suggestions : Option (List String)) : MCPError :=
  ⟨"not_found_error", message, 404, details.getD [], suggestions.getD []⟩

/-- `ConnectionError` (errors.py): kind "connection_error", code 503; the
suggestion list defaults (via Python `or`, so also when `[]` is passed) to
the single suggestion to check the engine is running. -/
def ConnectionError (message : String) (details : Option (List (String × JsonVal)))
    (suggestions : Option (List String)) : MCPError :=
  ⟨"connection_error", message, 503, details.getD [],
    if (suggestions.getD []).isEmpty then ["Check that the OpenFisca server is running"]
    else suggestions.getD []⟩

/-- `format_api_error` (errors.py): normalize an upstream error body plus
HTTP status into one taxonomy error. -/
def format_api_error (response_data : List (String × JsonVal)) (status_code : Nat) : MCPError :=
  match List.lookup "error" response_data with
  | some (.str message) =>
      if status_code == 404 then NotFoundError message none none
      else ValidationError message none none
  | _ =>
      let field_errors := response_data.filter (fun kv => hasSlash kv.1 || !(kv.1 == "error"))
      match field_errors with
      | (first_path, first_message) :: _ =>
          ValidationError
            ("Validation error at " ++ first_path ++ ": " ++ pyStr first_message)
            (some [("field_errors", .obj field_errors)])
            (some ["Check the field path and value format"])
      | [] =>
          ValidationError "API returned an error"
            (some [("raw_response", .obj response_data)])
            none

/-! ## client.py — the transport client -/

/-- Outcome of a Python computation: normal return, a raised taxonomy
`MCPError`, or any other raised exception (description string). -/
inductive PyResult (α : Type) where
  | ok (a : α) : PyResult α
  | mcpError (e : MCPError) : PyResult α
  | pyExc (msg : String) : PyResult α

/-- An HTTP response: status, JSON-decoded object body (or a decode
failure), and raw text. Upstream bodies are modelled as JSON objects. -/
structure HttpResponse where
  status : Nat
  body : Except String (List (String × JsonVal))
  text : String

/-- Outcome of the single HTTP attempt a client operation makes. -/
inductive HttpAttempt where
  | connectError (cause : String) : HttpAttempt
  | success (r : HttpResponse) : HttpAttempt

/-- The connection-failure message `f"Cannot connect to OpenFisca API at {base_url}"`. -/
def cannotConnectMsg (baseUrl : String) : String :=
  "Cannot connect to OpenFisca API at " ++ baseUrl

/-- The `ConnectionError` raised by every client operation on `httpx.ConnectError`. -/
def connectionFailure (baseUrl cause : String) : MCPError :=
  ConnectionError (cannotConnectMsg baseUrl)
    (some [("url", .str baseUrl), ("error", .str cause)]) none

/-- `OpenFiscaClient._handle_response` (client.py): on status >= 400 raise the
normalized error (falling back to `{"error": response.text}` when the body is
not JSON), otherwise return the decoded body. -/
def handle_response (r : HttpResponse) : PyResult JsonVal :=
  if 400 ≤ r.status then
    .mcpError (format_api_error
      (match r.body with
       | .ok d => d
       | .error _ => [("error", .str r.text)]) r.status)
  else
    match r.body with
    | .ok d => .ok (.obj d)
    | .error m => .pyExc m

/-- `OpenFiscaClient.get_entities` (client.py). -/
def get_entities (baseUrl : String) (att : HttpAttempt) : PyResult JsonVal :=
  match att with
  | .connectError cause => .mcpError (connectionFailure baseUrl cause)
  | .success r => handle_response r

/-- `OpenFiscaClient.get_variables` (client.py). -/
def get_variables (baseUrl : String) (att : HttpAttempt) : PyResult JsonVal :=
  match att with
  | .connectError cause => .mcpError (connectionFailure baseUrl cause)
  | .success r => handle_response r

/-- `OpenFiscaClient.get_variable` (client.py). -/
def get_variable (baseUrl : String) (variable_id : String) (att : HttpAttempt) : PyResult JsonVal :=
  match att with
  | .connectError cause => .mcpError (connectionFailure baseUrl cause)
  | .success r => handle_response r

/-- `OpenFiscaClient.get_parameters` (client.py). -/
def get_parameters (baseUrl : String) (att : HttpAttempt) : PyResult JsonVal :=
  match att with
  | .connectError cause => .mcpError (connectionFailure baseUrl cause)
  | .success r => handle_response r

/-- `OpenFiscaClient.get_parameter` (client.py). -/
def get_parameter (baseUrl : String) (parameter_id : String) (att : HttpAttempt) : PyResult JsonVal :=
  match att with
  | .connectError cause => .mcpError (connectionFailure baseUrl cause)
  | .success r => handle_response r

/-- `OpenFiscaClient.calculate` (client.py). -/
def client_calculate (baseUrl : String) (situation : JsonVal) (att : HttpAttempt) : PyResult JsonVal :=
  match att with
  | .connectError cause => .mcpError (connectionFailure baseUrl cause)
  | .success r => handle_response r

/-- `OpenFiscaClient.trace` (client.py). -/
def client_trace (baseUrl : String) (situation : JsonVal) (att : HttpAttempt) : PyResult JsonVal :=
  match att with
  | .connectError cause => .mcpError (connectionFailure baseUrl cause)
  | .success r => handle_response r

/-! ## server.py — situation validator

The entity schema returned by `/entities`: each entity has a mandatory
`plural` string; `roles`, when present, is a mapping from role key to a
role descriptor of arbitrary JSON shape (the code probes descriptor shape
at runtime). -/

/-- One entity definition as fetched from the engine (`plural` mandatory
per the published schema; `roles` optional, descriptors arbitrary). -/
structure EntityInfo where
  plural : String
  roles : Option (List (String × JsonVal))

/-- The two result dictionaries `handle_validate_situation` can return:
`{"valid": True, "message": ..., "warnings": ...}` or
`{"valid": False, "errors": ..., "warnings": ...}`. -/
inductive ValOut where
  | valid (message : String) (warnings : List String) : ValOut
  | invalid (errors : List String) (warnings : List String) : ValOut

/-- The `errors` list carried by a validation result (empty for a valid one). -/
def resultErrors : ValOut → List String
  | .valid _ _ => []
  | .invalid errs _ => errs

/-- Error message `f"Unknown entity type: '{key}'"` (server.py line 418). -/
def unknownEntityMsg (key : String) : String :=
  "Unknown entity type: '" ++ key ++ "'"

/-- Error message `"At least one person must be defined"` (server.py line 423). -/
def personRequiredMsg : String :=
  "At least one person must be defined"

/-- Error message `f"Unknown variable '{var_name}' for person '{person_id}'"`
(server.py line 435). -/
def unknownPersonVarMsg (var_name person_id : String) : String :=
  "Unknown variable '" ++ var_name ++ "' for person '" ++ person_id ++ "'"

/-- Error message `f"Person '{person_id}' in {entity_plural}/{instance_id}/{key}
is not defined in persons"` (server.py lines 456-459). -/
def danglingMsg (person_id entity_plural instance_id key : String) : String :=
  "Person '" ++ person_id ++ "' in " ++ entity_plural ++ "/" ++ instance_id ++ "/" ++ key
    ++ " is not defined in persons"

/-- Error message `f"Unknown variable '{key}' for {entity_plural} '{instance_id}'"`
(server.py line 462). -/
def unknownGroupVarMsg (key entity_plural instance_id : String) : String :=
  "Unknown variable '" ++ key ++ "' for " ++ entity_plural ++ " '" ++ instance_id ++ "'"

/-- Run `f` over each element in order, concatenating the produced error
lists; the first raised exception wins (the shape of every
`for ...: errors.extend(...)` loop in the validator). -/
def collectM (f : α → Except String (List β)) : List α → Except String (List β)
  | [] => .ok []
  | x :: xs =>
    match f x with
    | .error m => .error m
    | .ok e =>
      match collectM f xs with
      | .error m => .error m
      | .ok rest => .ok (e ++ rest)

/-- The iterable of variable names `for var_name in person_data` produces:
dict keys, list elements, or the characters of a string; scalars are not
iterable and raise `TypeError`. -/
def personVarNames : JsonVal → Except String (List JsonVal)
  | .obj kvs => .ok (kvs.map (fun kv => .str kv.1))
  | .list items => .ok items
  | .str s => .ok (s.data.map (fun c => .str (String.singleton c)))
  | v => .error ("TypeError: '" ++ pyTypeName v ++ "' object is not iterable")

/-- Check one variable name of a person: `if var_name not in all_vars:` —
membership in the variable dict hashes the probe (unhashable values raise
`TypeError`); a non-string scalar is simply never a key. -/
def checkVarName (all_vars : List String) (person_id : String) :
    JsonVal → Except String (List String)
  | .str s =>
      .ok (if s ∈ all_vars then [] else [unknownPersonVarMsg s person_id])
  | .num n => .ok [unknownPersonVarMsg (pyStr (.num n)) person_id]
  | .bool b => .ok [unknownPersonVarMsg (pyStr (.bool b)) person_id]
  | .null => .ok [unknownPersonVarMsg "None" person_id]
  | v => .error ("TypeError: unhashable type: '" ++ pyTypeName v ++ "'")

/-- Errors of the loop `for var_name in person_data: ...` for one person. -/
def personErrors (all_vars : List String) (person_id : String) (person_data : JsonVal) :
    Except String (List String) :=
  match personVarNames person_data with
  | .error m => .error m
  | .ok names => collectM (checkVarName all_vars person_id) names

/-- The person-variable check (server.py lines 432-435): `persons.items()`
raises `AttributeError` unless `persons` is a dict; returns the person ids
together with the accumulated errors. -/
def personVarStage (all_vars : List String) (persons : JsonVal) :
    Except String (List String × List String) :=
  match persons with
  | .obj kvs =>
      match collectM (fun kv => personErrors all_vars kv.1 kv.2) kvs with
      | .error m => .error m
      | .ok errs => .ok (kvs.map Prod.fst, errs)
  | v => .error ("AttributeError: '" ++ pyTypeName v ++ "' object has no attribute 'items'")

/-- `r.get("plural", r["key"])` for one role descriptor.  Python first
resolves the attribute `r.get` (`AttributeError` on a non-dict), then
evaluates the default argument `r["key"]` eagerly — so a dict descriptor
missing `"key"` raises `KeyError: 'key'` even when `"plural"` is present —
and only then performs the `get`. -/
def descriptorPlural : JsonVal → Except String JsonVal
  | .obj kvs =>
      match List.lookup "key" kvs with
      | none => .error "KeyError: 'key'"
      | some dflt =>
          match List.lookup "plural" kvs with
          | some v => .ok v
          | none => .ok dflt
  | v => .error ("AttributeError: '" ++ pyTypeName v ++ "' object has no attribute 'get'")

/-- Server.py line 448: build the role-plural set
`{r.get("plural", r["key"]) for r in roles.values()}` when the first role
descriptor is a dict (`next(iter(values()), {})` defaults to `{}`, which is
a dict), else the empty set.  Inserting an unhashable value raises. -/
def rolePlurals (descriptors : List JsonVal) : Except String (List JsonVal) :=
  match descriptors with
  | [] => .ok []
  | r0 :: _ =>
    match r0 with
    | .obj _ =>
        collectM (fun r =>
          match descriptorPlural r with
          | .error m => .error m
          | .ok v =>
            if hashable v then .ok [v]
            else .error ("TypeError: unhashable type: '" ++ pyTypeName v ++ "'")) descriptors
    | _ => .ok []

/-- `key in role_keys or key in role_plurals` (server.py line 451). -/
def roleKeyMatch (role_keys : List String) (role_plurals : List JsonVal) (key : String) : Bool :=
  role_keys.contains key || role_plurals.any (strEqVal key)

/-- Check one element of a role-assignment list: `if person_id not in persons:`
hashes the probe (unhashable elements raise); a non-string scalar is never a
key of the persons dict, so it is always reported dangling. -/
def checkRoleElem (person_keys : List String) (entity_plural instance_id key : String) :
    JsonVal → Except String (List String)
  | .str s =>
      .ok (if s ∈ person_keys then [] else [danglingMsg s entity_plural instance_id key])
  | .num n => .ok [danglingMsg (pyStr (.num n)) entity_plural instance_id key]
  | .bool b => .ok [danglingMsg (pyStr (.bool b)) entity_plural instance_id key]
  | .null => .ok [danglingMsg "None" entity_plural instance_id key]
  | v => .error ("TypeError: unhashable type: '" ++ pyTypeName v ++ "'")

/-- Process one `key, value` pair of a group-entity instance
(server.py lines 450-463). -/
def instanceKeyErrors (all_vars person_keys : List String) (role_keys : List String)
    (plurals : List JsonVal) (entity_plural instance_id : String)
    (key : String) (value : JsonVal) : Except String (List String) :=
  if roleKeyMatch role_keys plurals key then
    match value with
    | .list items => collectM (checkRoleElem person_keys entity_plural instance_id key) items
    | _ => .ok []
  else if key ∈ all_vars then .ok []
  else .ok [unknownGroupVarMsg key entity_plural instance_id]

/-- Process one group-entity instance: the role sets are computed first
(inside the instance loop, so descriptor problems only raise when an
instance exists), then `instance_data.items()` is iterated. -/
def instanceErrors (all_vars person_keys : List String) (roles : List (String × JsonVal))
    (entity_plural instance_id : String) (instance_data : JsonVal) :
    Except String (List String) :=
  match rolePlurals (roles.map Prod.snd) with
  | .error m => .error m
  | .ok plurals =>
    match instance_data with
    | .obj kvs =>
        collectM (fun kv =>
          instanceKeyErrors all_vars person_keys (roles.map Prod.fst) plurals
            entity_plural instance_id kv.1 kv.2) kvs
    | v => .error ("AttributeError: '" ++ pyTypeName v ++ "' object has no attribute 'items'")

/-- Process one group entity: `situation.get(entity_plural, {})` must be a
dict; iterate its instances (server.py lines 443-463). -/
def groupEntityErrors (all_vars person_keys : List String) (entity_plural : String)
    (roles : List (String × JsonVal)) (situation : List (String × JsonVal)) :
    Except String (List String) :=
  match lookupD situation entity_plural (.obj []) with
  | .obj instances =>
      collectM (fun inst =>
        instanceErrors all_vars person_keys roles entity_plural inst.1 inst.2) instances
  | v => .error ("AttributeError: '" ++ pyTypeName v ++ "' object has no attribute 'items'")

/-- The group-entity check (server.py lines 438-463): entities without
`roles` are skipped. -/
def groupStage (entities : List (String × EntityInfo)) (all_vars person_keys : List String)
    (situation : List (String × JsonVal)) : Except String (List String) :=
  collectM (fun ent =>
    match ent.2.roles with
    | none => .ok []
    | some roles => groupEntityErrors all_vars person_keys ent.2.plural roles situation)
    entities

/-- The set of acceptable top-level situation keys: every entity's plural
form plus every entity's own key (server.py lines 412-413). -/
def validTopLevelKeys (entities : List (String × EntityInfo)) : List String :=
  entities.map (fun ent => ent.2.plural) ++ entities.map Prod.fst

/-- The top-level key check (server.py lines 416-418). -/
def topLevelErrors (valid_keys : List String) (situation_keys : List String) : List String :=
  situation_keys.filterMap (fun k =>
    if k ∈ valid_keys then none else some (unknownEntityMsg k))

/-- The body of `handle_validate_situation` after both schema fetches
succeeded (server.py lines 412-480): top-level keys, person presence,
person variables, group entities, then the valid/invalid result shape.
Note the person check reads the literal key `"persons"`. -/
def situationChecks (entities : List (String × EntityInfo)) (all_vars : List String)
    (situation : List (String × JsonVal)) : Except String ValOut :=
  let errs1 := topLevelErrors (validTopLevelKeys entities) (situation.map Prod.fst)
  let persons := lookupD situation "persons" (.obj [])
  let errs2 := if pyTruthy persons then [] else [personRequiredMsg]
  match personVarStage all_vars persons with
  | .error m => .error m
  | .ok (person_keys, errs3) =>
    match groupStage entities all_vars person_keys situation with
    | .error m => .error m
    | .ok errs4 =>
      let errors := errs1 ++ errs2 ++ errs3 ++ errs4
      if errors.isEmpty then .ok (.valid "Situation is valid" [])
      else .ok (.invalid errors [])

/-- A request issued to the Rule Engine Service by a tool handler. -/
inductive EngineCall where
  | entitiesCall : EngineCall
  | variablesCall : EngineCall
  | calculateCall (situation : JsonVal) : EngineCall
  | traceCall (situation : JsonVal) : EngineCall

/-- The `ValidationError("Situation is required", ...)` raised by the three
situation-taking handlers on a falsy situation argument. -/
def situationRequiredError : MCPError :=
  ValidationError "Situation is required" none
    (some ["Provide a situation object with persons and households"])

/-- `handle_calculate` (server.py lines 371-380), with the engine response
abstracted; also returns the list of engine requests issued. -/
def handle_calculate (situation : List (String × JsonVal))
    (engineResult : PyResult JsonVal) : PyResult JsonVal × List EngineCall :=
  if pyTruthy (.obj situation) then (engineResult, [.calculateCall (.obj situation)])
  else (.mcpError situationRequiredError, [])

/-- `handle_trace_calculation` (server.py lines 383-392). -/
def handle_trace_calculation (situation : List (String × JsonVal))
    (engineResult : PyResult JsonVal) : PyResult JsonVal × List EngineCall :=
  if pyTruthy (.obj situation) then (engineResult, [.traceCall (.obj situation)])
  else (.mcpError situationRequiredError, [])

/-- `handle_validate_situation` (server.py lines 395-480): falsy-situation
guard, then the entities fetch, then the variables fetch, then the pure
checks.  (The top-level and person-presence checks textually sit between
the two fetches but issue no request and cannot raise, so the flow below
is behavior-equivalent.)  A fetch failure propagates; any non-`MCPError`
exception inside the checks propagates as `pyExc`. -/
def handle_validate_situation (situation : List (String × JsonVal))
    (entitiesResult : PyResult (List (String × EntityInfo)))
    (varsResult : PyResult (List String)) : PyResult ValOut × List EngineCall :=
  if !pyTruthy (.obj situation) then (.mcpError situationRequiredError, [])
  else
    match entitiesResult with
    | .mcpError e => (.mcpError e, [.entitiesCall])
    | .pyExc m => (.pyExc m, [.entitiesCall])
    | .ok entities =>
      match varsResult with
      | .mcpError e => (.mcpError e, [.entitiesCall, .variablesCall])
      | .pyExc m => (.pyExc m, [.entitiesCall, .variablesCall])
      | .ok all_vars =>
        (match situationChecks entities all_vars situation with
         | .ok out => .ok out
         | .error m => .pyExc m,
         [.entitiesCall, .variablesCall])

/-! ## server.py — tool dispatcher -/

/-- One invocation of a tool handler, with the arguments the dispatcher
extracted for it. -/
inductive HandlerInv where
  | listEntities : HandlerInv
  | listVariables (entity : Option JsonVal) : HandlerInv
  | describeVariable (variable_name : JsonVal) : HandlerInv
  | listParameters : HandlerInv
  | getParameter (parameter_id : JsonVal) : HandlerInv
  | searchVariables (query : JsonVal) (entity : Option JsonVal) : HandlerInv
  | calculate (situation : JsonVal) : HandlerInv
  | traceCalculation (situation : JsonVal) : HandlerInv
  | validateSituation (situation : JsonVal) : HandlerInv

/-- `arguments["key"]`: `KeyError` when absent (Python renders the raised
`KeyError` as the repr of the missing key). -/
def requiredArg (arguments : List (String × JsonVal)) (key : String) : Except String JsonVal :=
  match List.lookup key arguments with
  | some v => .ok v
  | none => .error ("'" ++ key ++ "'")

/-- The nine tool names `call_tool` dispatches on. -/
def toolNames : List String :=
  ["list_entities", "list_variables", "describe_variable", "list_parameters",
   "get_parameter", "search_variables", "calculate", "trace_calculation",
   "validate_situation"]

/-- The `try:` body of `call_tool` (server.py lines 254-276): exact-name
dispatch; a missing required argument raises `KeyError` before the handler
runs; an unknown name raises `ValidationError(f"Unknown tool: {name}")`.
The outcome of each underlying handler invocation is abstracted by `run`. -/
def tryInvoke (name : String) (arguments : List (String × JsonVal))
    (run : HandlerInv → PyResult JsonVal) : PyResult JsonVal :=
  if name == "list_entities" then run .listEntities
  else if name == "list_variables" then run (.listVariables (List.lookup "entity" arguments))
  else if name == "describe_variable" then
    match requiredArg arguments "variable_name" with
    | .ok v => run (.describeVariable v)
    | .error m => .pyExc m
  else if name == "list_parameters" then run .listParameters
  else if name == "get_parameter" then
    match requiredArg arguments "parameter_id" with
    | .ok v => run (.getParameter v)
    | .error m => .pyExc m
  else if name == "search_variables" then
    match requiredArg arguments "query" with
    | .ok q => run (.searchVariables q (List.lookup "entity" arguments))
    | .error m => .pyExc m
  else if name == "calculate" then
    match requiredArg arguments "situation" with
    | .ok s => run (.calculate s)
    | .error m => .pyExc m
  else if name == "trace_calculation" then
    match requiredArg arguments "situation" with
    | .ok s => run (.traceCalculation s)
    | .error m => .pyExc m
  else if name == "validate_situation" then
    match requiredArg arguments "situation" with
    | .ok s => run (.validateSituation s)
    | .error m => .pyExc m
  else .mcpError (ValidationError ("Unknown tool: " ++ name) none none)

/-- `format_result` (server.py lines 21-25): a dict is JSON-rendered as-is,
anything else is rendered via `str`. -/
def format_result (data : JsonVal) : JsonVal :=
  match data with
  | .obj fields => .obj fields
  | v => .str (pyStr v)

/-- `format_error` (server.py lines 28-30): render `error.to_dict()`. -/
def format_error (error : MCPError) : JsonVal :=
  error.to_dict

/-- `call_tool` (server.py lines 251-285): run the dispatch body; a raised
`MCPError` is rendered as its serialization, any other exception as an
internal-kind error with the original message and status 500. -/
def call_tool (name : String) (arguments : List (String × JsonVal))
    (run : HandlerInv → PyResult JsonVal) : JsonVal :=
  match tryInvoke name arguments run with
  | .ok v => format_result v
  | .mcpError e => format_error e
  | .pyExc m => format_error ⟨"internal_error", m, 500, [], []⟩

/-! ## Definitions used to state the claims -/

/-- Read one field of the nested `{"error": {...}}` serialization shape. -/
def readErrorField (d : JsonVal) (field : String) : Option JsonVal :=
  match d with
  | .obj kvs =>
      match List.lookup "error" kvs with
      | some (.obj inner) => List.lookup field inner
      | _ => none
  | _ => none

/-- Read back a list of strings from a serialized suggestion list. -/
def readStrList : List JsonVal → Option (List String)
  | [] => some []
  | .str s :: rest => (readStrList rest).map (fun l => s :: l)
  | _ => none

/-- Modelled from the spec: deserializing a Tool Error by reading the five
fields `type`, `code`, `message`, `details`, `suggestions` back out of the
fixed nested shape (the reading direction of the round-trip in claim C8,
which the repository's consumers perform). -/
def fromDict (d : JsonVal) : Option MCPError :=
  match readErrorField d "type", readErrorField d "code", readErrorField d "message",
        readErrorField d "details", readErrorField d "suggestions" with
  | some (.str t), some (.num c), some (.str m), some (.obj det), some (.list sugg) =>
      (readStrList sugg).map (fun sl => ⟨t, m, c, det, sl⟩)
  | _, _, _, _, _ => none

/-- The ids the validator's dangling-reference check compares against: the
keys of the situation's literal top-level `"persons"` entry. -/
def personKeysOf (sit : List (String × JsonVal)) : List String :=
  match lookupD sit "persons" (.obj []) with
  | .obj kvs => kvs.map Prod.fst
  | _ => []

/-- The dangling-reference errors one role-assignment list produces: one
message per referenced id that is not a key of the literal persons section
(non-string scalars are never keys, so they are always reported). -/
def danglingList (pks : List String) (ep iid k : String) (items : List JsonVal) : List String :=
  items.filterMap (fun pid =>
    match pid with
    | .str s => if s ∈ pks then none else some (danglingMsg s ep iid k)
    | .num n => some (danglingMsg (pyStr (.num n)) ep iid k)
    | .bool b => some (danglingMsg (pyStr (.bool b)) ep iid k)
    | .null => some (danglingMsg "None" ep iid k)
    | _ => none)

/-- A person-variable container the check can iterate without raising. -/
def wfPersonData : JsonVal → Bool
  | .obj _ => true
  | .list items => items.all hashable
  | .str _ => true
  | _ => false

/-- An instance-entry value the role check can process without raising
(only list values are iterated, and only their elements are hashed). -/
def wfValue : JsonVal → Bool
  | .list items => items.all hashable
  | _ => true

/-- A group-entity instance body the check can process without raising. -/
def wfInstance : JsonVal → Bool
  | .obj kvs => kvs.all (fun kv => wfValue kv.2)
  | _ => false

/-- A mapping-shaped role descriptor the comprehension can process: it must
carry a `key` field (evaluated eagerly as the `get` default even when
`plural` is present), and the value actually used — `plural` when present,
else `key` — must be hashable. -/
def wfDescriptor : JsonVal → Bool
  | .obj kvs =>
      (match List.lookup "key" kvs with
       | none => false
       | some dflt =>
         match List.lookup "plural" kvs with
         | some v => hashable v
         | none => hashable dflt)
  | _ => false

/-- Role descriptors the role-plural set construction can process without
raising: either the first descriptor is not mapping-shaped (the code then
skips the construction) or every descriptor is well-formed. -/
def wfDescriptors (descriptors : List JsonVal) : Bool :=
  match descriptors with
  | [] => true
  | r0 :: _ =>
    match r0 with
    | .obj _ => descriptors.all wfDescriptor
    | _ => true

/-- A group-entity section the instance loop can iterate without raising. -/
def wfGroupSection : JsonVal → Bool
  | .obj instances => instances.all (fun inst => wfInstance inst.2)
  | _ => false

/-- Structural conditions under which the validation checks cannot raise:
a non-empty situation, a mapping-shaped literal persons section with
iterable person bodies, and for each group entity well-formed role
descriptors and a mapping-shaped section of mapping-shaped instances. -/
def wellFormedSituation (ents : List (String × EntityInfo))
    (sit : List (String × JsonVal)) : Bool :=
  !sit.isEmpty &&
  (match lookupD sit "persons" (.obj []) with
   | .obj kvs => kvs.all (fun kv => wfPersonData kv.2)
   | _ => false) &&
  ents.all (fun ent =>
    match ent.2.roles with
    | none => true
    | some roles =>
        wfDescriptors (roles.map Prod.snd) &&
        wfGroupSection (lookupD sit ent.2.plural (.obj [])))

/-! ## Generic lemmas about the error-collecting loops -/

theorem collectM_cons_ok {f : α → Except String (List β)} {x : α} {xs : List α} {l : List β}
    (h : collectM f (x :: xs) = .ok l) :
    ∃ e rest, f x = .ok e ∧ collectM f xs = .ok rest ∧ l = e ++ rest := by
  unfold collectM at h
  cases hfx : f x with
  | error m => rw [hfx] at h; exact absurd h (by simp)
  | ok e =>
    rw [hfx] at h
    cases hrest : collectM f xs with
    | error m => rw [hrest] at h; exact absurd h (by simp)
    | ok rest =>
      rw [hrest] at h
      simp at h
      exact ⟨e, rest, rfl, rfl, h.symm⟩

/-- Each element's contribution embeds, in order, into the collected list. -/
theorem collectM_mem_sublist {f : α → Except String (List β)} {xs : List α} {l : List β}
    (h : collectM f xs = .ok l) {x : α} (hx : x ∈ xs) :
    ∃ e, f x = .ok e ∧ List.Sublist e l := by
  induction xs generalizing l with
  | nil => cases hx
  | cons y ys ih =>
    obtain ⟨e, rest, hfy, hrest, hl⟩ := collectM_cons_ok h
    rcases List.mem_cons.mp hx with rfl | hx'
    · exact ⟨e, hfy, hl ▸ List.sublist_append_left e rest⟩
    · obtain ⟨e', hfe', hsub⟩ := ih hrest hx'
      exact ⟨e', hfe', hl ▸ hsub.trans (List.sublist_append_right e rest)⟩

/-- Every collected element comes from some input element's contribution. -/
theorem collectM_mem_exists {f : α → Except String (List β)} {xs : List α} {l : List β}
    (h : collectM f xs = .ok l) {b : β} (hb : b ∈ l) :
    ∃ x ∈ xs, ∃ e, f x = .ok e ∧ b ∈ e := by
  induction xs generalizing l with
  | nil => unfold collectM at h; simp at h; subst h; cases hb
  | cons y ys ih =>
    obtain ⟨e, rest, hfy, hrest, hl⟩ := collectM_cons_ok h
    subst hl
    rcases List.mem_append.mp hb with hbe | hbr
    · exact ⟨y, List.mem_cons_self y ys, e, hfy, hbe⟩
    · obtain ⟨x, hx, e', hfe', hbe'⟩ := ih hrest hbr
      exact ⟨x, List.mem_cons_of_mem y hx, e', hfe', hbe'⟩

/-- The loop completes when no element raises. -/
theorem collectM_ok_of_forall {f : α → Except String (List β)} {xs : List α}
    (h : ∀ x ∈ xs, ∃ e, f x = .ok e) : ∃ l, collectM f xs = .ok l := by
  induction xs with
  | nil => exact ⟨[], rfl⟩
  | cons y ys ih =>
    obtain ⟨e, hfy⟩ := h y (List.mem_cons_self y ys)
    obtain ⟨rest, hrest⟩ := ih (fun x hx => h x (List.mem_cons_of_mem y hx))
    exact ⟨e ++ rest, by unfold collectM; rw [hfy, hrest]⟩

/-! ## The five validator message families are pairwise distinguishable -/

theorem ne_of_data_get (i : Nat) {s t : String}
    (h : s.data.get? i ≠ t.data.get? i) : s ≠ t := by
  intro he; exact h (he ▸ rfl)

theorem uem_get8 (k : String) : (unknownEntityMsg k).data.get? 8 = some 'e' := by
  unfold unknownEntityMsg
  simp only [String.data_append]
  rfl

theorem upvm_get8 (v p : String) : (unknownPersonVarMsg v p).data.get? 8 = some 'v' := by
  unfold unknownPersonVarMsg
  simp only [String.data_append]
  rfl

theorem ugvm_get8 (k ep iid : String) :
    (unknownGroupVarMsg k ep iid).data.get? 8 = some 'v' := by
  unfold unknownGroupVarMsg
  simp only [String.data_append]
  rfl

theorem uem_get0 (k : String) : (unknownEntityMsg k).data.get? 0 = some 'U' := by
  unfold unknownEntityMsg
  simp only [String.data_append]
  rfl

theorem dm_get0 (p ep iid k : String) : (danglingMsg p ep iid k).data.get? 0 = some 'P' := by
  unfold danglingMsg
  simp only [String.data_append]
  rfl

theorem uem_ne_prm (k : String) : unknownEntityMsg k ≠ personRequiredMsg := by
  apply ne_of_data_get 0
  rw [uem_get0]
  intro h
  exact absurd h (by decide)

theorem uem_ne_upvm (k v p : String) : unknownEntityMsg k ≠ unknownPersonVarMsg v p := by
  apply ne_of_data_get 8
  rw [uem_get8, upvm_get8]
  simp

theorem uem_ne_dm (k p ep iid kk : String) : unknownEntityMsg k ≠ danglingMsg p ep iid kk := by
  apply ne_of_data_get 0
  rw [uem_get0, dm_get0]
  simp

theorem uem_ne_ugvm (k kk ep iid : String) :
    unknownEntityMsg k ≠ unknownGroupVarMsg kk ep iid := by
  apply ne_of_data_get 8
  rw [uem_get8, ugvm_get8]
  simp

theorem uem_inj {k k' : String} (h : unknownEntityMsg k = unknownEntityMsg k') : k = k' := by
  unfold unknownEntityMsg at h
  have hd := congrArg String.data h
  simp only [String.data_append, List.append_assoc] at hd
  have h2 := List.append_cancel_left hd
  have h3 := List.append_cancel_right h2
  cases k; cases k'; simp_all

/-! ## Shape of the errors each validation stage can produce -/

theorem mem_topLevelErrors {vk ks : List String} {m : String} :
    m ∈ topLevelErrors vk ks ↔ ∃ k, k ∈ ks ∧ k ∉ vk ∧ m = unknownEntityMsg k := by
  unfold topLevelErrors
  simp only [List.mem_filterMap]
  constructor
  · rintro ⟨k, hk, hif⟩
    by_cases hkv : k ∈ vk
    · simp [hkv] at hif
    · simp [hkv] at hif
      exact ⟨k, hk, hkv, hif.symm⟩
  · rintro ⟨k, hk, hkv, rfl⟩
    exact ⟨k, hk, by simp [hkv]⟩

theorem checkVarName_shape {av : List String} {pid : String} {v : JsonVal} {e : List String}
    (h : checkVarName av pid v = .ok e) {m : String} (hm : m ∈ e) :
    ∃ vn, m = unknownPersonVarMsg vn pid := by
  cases v with
  | str s =>
    simp only [checkVarName, Except.ok.injEq] at h
    subst h
    by_cases hs : s ∈ av
    · simp [hs] at hm
    · simp [hs] at hm
      exact ⟨s, hm⟩
  | num n =>
    simp only [checkVarName, Except.ok.injEq] at h
    subst h
    simp at hm
    exact ⟨_, hm⟩
  | bool b =>
    simp only [checkVarName, Except.ok.injEq] at h
    subst h
    simp at hm
    exact ⟨_, hm⟩
  | null =>
    simp only [checkVarName, Except.ok.injEq] at h
    subst h
    simp at hm
    exact ⟨_, hm⟩
  | list items => simp [checkVarName] at h
  | obj fields => simp [checkVarName] at h

theorem personVarStage_shape {av : List String} {persons : JsonVal}
    {pk errs : List String} (h : personVarStage av persons = .ok (pk, errs))
    {m : String} (hm : m ∈ errs) : ∃ vn pid, m = unknownPersonVarMsg vn pid := by
  cases persons with
  | obj kvs =>
    simp only [personVarStage] at h
    cases hc : collectM (fun kv => personErrors av kv.1 kv.2) kvs with
    | error msg => rw [hc] at h; exact absurd h (by simp)
    | ok errs' =>
      rw [hc] at h
      simp at h
      obtain ⟨kv, _, e, he, hme⟩ := collectM_mem_exists hc (h.2 ▸ hm)
      unfold personErrors at he
      cases hn : personVarNames kv.2 with
      | error msg => rw [hn] at he; exact absurd he (by simp)
      | ok names =>
        rw [hn] at he
        obtain ⟨x, _, e', he', hme'⟩ := collectM_mem_exists he hme
        obtain ⟨vn, hvn⟩ := checkVarName_shape he' hme'
        exact ⟨vn, kv.1, hvn⟩
  | null => simp [personVarStage] at h
  | bool b => simp [personVarStage] at h
  | num n => simp [personVarStage] at h
  | str s => simp [personVarStage] at h
  | list items => simp [personVarStage] at h

theorem checkRoleElem_shape {pks : List String} {ep iid k : String} {v : JsonVal}
    {e : List String} (h : checkRoleElem pks ep iid k v = .ok e) {m : String} (hm : m ∈ e) :
    ∃ p, m = danglingMsg p ep iid k := by
  cases v with
  | str s =>
    simp only [checkRoleElem, Except.ok.injEq] at h
    subst h
    by_cases hs : s ∈ pks
    · simp [hs] at hm
    · simp [hs] at hm
      exact ⟨s, hm⟩
  | num n =>
    simp only [checkRoleElem, Except.ok.injEq] at h
    subst h
    simp at hm
    exact ⟨_, hm⟩
  | bool b =>
    simp only [checkRoleElem, Except.ok.injEq] at h
    subst h
    simp at hm
    exact ⟨_, hm⟩
  | null =>
    simp only [checkRoleElem, Except.ok.injEq] at h
    subst h
    simp at hm
    exact ⟨_, hm⟩
  | list items => simp [checkRoleElem] at h
  | obj fields => simp [checkRoleElem] at h

theorem instanceKeyErrors_shape {av pks rks : List String} {pls : List JsonVal}
    {ep iid k : String} {v : JsonVal} {e : List String}
    (h : instanceKeyErrors av pks rks pls ep iid k v = .ok e) {m : String} (hm : m ∈ e) :
    (∃ p, m = danglingMsg p ep iid k) ∨ m = unknownGroupVarMsg k ep iid := by
  unfold instanceKeyErrors at h
  by_cases hrk : roleKeyMatch rks pls k
  · rw [if_pos hrk] at h
    cases v with
    | list items =>
      obtain ⟨_, _, e', he', hme'⟩ := collectM_mem_exists h hm
      exact .inl (checkRoleElem_shape he' hme')
    | null => simp at h; subst h; cases hm
    | bool b => simp at h; subst h; cases hm
    | num n => simp at h; subst h; cases hm
    | str s => simp at h; subst h; cases hm
    | obj fields => simp at h; subst h; cases hm
  · rw [if_neg hrk] at h
    by_cases hkv : k ∈ av
    · simp [hkv] at h; subst h; cases hm
    · simp [hkv] at h
      subst h
      simp at hm
      exact .inr hm

theorem instanceErrors_shape {av pks : List String} {roles : List (String × JsonVal)}
    {ep iid : String} {idata : JsonVal} {e : List String}
    (h : instanceErrors av pks roles ep iid idata = .ok e) {m : String} (hm : m ∈ e) :
    (∃ p k, m = danglingMsg p ep iid k) ∨ (∃ k, m = unknownGroupVarMsg k ep iid) := by
  unfold instanceErrors at h
  cases hp : rolePlurals (roles.map Prod.snd) with
  | error msg => rw [hp] at h; exact absurd h (by simp)
  | ok plurals =>
    rw [hp] at h
    cases idata with
    | obj kvs =>
      obtain ⟨kv, _, e', he', hme'⟩ := collectM_mem_exists h hm
      rcases instanceKeyErrors_shape he' hme' with ⟨p, hpm⟩ | hgm
      · exact .inl ⟨p, kv.1, hpm⟩
      · exact .inr ⟨kv.1, hgm⟩
    | null => exact absurd h (by simp)
    | bool b => exact absurd h (by simp)
    | num n => exact absurd h (by simp)
    | str s => exact absurd h (by simp)
    | list items => exact absurd h (by simp)

theorem groupEntityErrors_shape {av pks : List String} {ep : String}
    {roles : List (String × JsonVal)} {sit : List (String × JsonVal)} {e : List String}
    (h : groupEntityErrors av pks ep roles sit = .ok e) {m : String} (hm : m ∈ e) :
    (∃ p iid k, m = danglingMsg p ep iid k) ∨ (∃ k iid, m = unknownGroupVarMsg k ep iid) := by
  unfold groupEntityErrors at h
  cases hs : lookupD sit ep (.obj []) with
  | obj instances =>
    rw [hs] at h
    obtain ⟨inst, _, e', he', hme'⟩ := collectM_mem_exists h hm
    rcases instanceErrors_shape he' hme' with ⟨p, k, hpm⟩ | ⟨k, hgm⟩
    · exact .inl ⟨p, inst.1, k, hpm⟩
    · exact .inr ⟨k, inst.1, hgm⟩
  | null => rw [hs] at h; exact absurd h (by simp)
  | bool b => rw [hs] at h; exact absurd h (by simp)
  | num n => rw [hs] at h; exact absurd h (by simp)
  | str s => rw [hs] at h; exact absurd h (by simp)
  | list items => rw [hs] at h; exact absurd h (by simp)

theorem groupStage_shape {ents : List (String × EntityInfo)} {av pks : List String}
    {sit : List (String × JsonVal)} {errs : List String}
    (h : groupStage ents av pks sit = .ok errs) {m : String} (hm : m ∈ errs) :
    (∃ p ep iid k, m = danglingMsg p ep iid k) ∨
    (∃ k ep iid, m = unknownGroupVarMsg k ep iid) := by
  obtain ⟨ent, _, e, he, hme⟩ := collectM_mem_exists h hm
  cases hr : ent.2.roles with
  | none =>
    rw [hr] at he
    simp at he
    subst he
    cases hme
  | some roles =>
    rw [hr] at he
    rcases groupEntityErrors_shape he hme with ⟨p, iid, k, hpm⟩ | ⟨k, iid, hgm⟩
    · exact .inl ⟨p, ent.2.plural, iid, k, hpm⟩
    · exact .inr ⟨k, ent.2.plural, iid, hgm⟩

/-- Destructuring a successful run of the checks: the stages succeeded and
the result's error list is exactly the concatenation of the four stages'
errors (also when the result is the valid shape, whose error list is empty). -/
theorem situationChecks_ok_errors {ents : List (String × EntityInfo)} {av : List String}
    {sit : List (String × JsonVal)} {out : ValOut}
    (h : situationChecks ents av sit = .ok out) :
    ∃ pk errs3 errs4,
      personVarStage av (lookupD sit "persons" (.obj [])) = .ok (pk, errs3) ∧
      groupStage ents av pk sit = .ok errs4 ∧
      resultErrors out =
        topLevelErrors (validTopLevelKeys ents) (sit.map Prod.fst)
          ++ (if pyTruthy (lookupD sit "persons" (.obj [])) then [] else [personRequiredMsg])
          ++ errs3 ++ errs4 := by
  simp only [situationChecks] at h
  cases hps : personVarStage av (lookupD sit "persons" (.obj [])) with
  | error msg => rw [hps] at h; exact absurd h (by simp)
  | ok pr =>
    obtain ⟨pk, errs3⟩ := pr
    rw [hps] at h
    dsimp only at h
    cases hgs : groupStage ents av pk sit with
    | error msg => rw [hgs] at h; exact absurd h (by simp)
    | ok errs4 =>
      rw [hgs] at h
      dsimp only at h
      refine ⟨pk, errs3, errs4, rfl, hgs, ?_⟩
      by_cases he : (topLevelErrors (validTopLevelKeys ents) (sit.map Prod.fst)
          ++ (if pyTruthy (lookupD sit "persons" (.obj [])) then [] else [personRequiredMsg])
          ++ errs3 ++ errs4).isEmpty
      · rw [if_pos he] at h
        simp at h
        subst h
        simp only [resultErrors]
        exact (List.isEmpty_iff.mp he).symm
      · rw [if_neg he] at h
        simp at h
        subst h
        simp only [resultErrors, List.append_assoc]

/-! ## Further helper lemmas for the individual claims -/

theorem readStrList_map (l : List String) : readStrList (l.map .str) = some l := by
  induction l with
  | nil => rfl
  | cons x xs ih => simp [readStrList, ih]

theorem lookup_eq_none_of_keys {l : List (String × JsonVal)} {a : String}
    (h : ∀ kv ∈ l, ¬kv.1 = a) : List.lookup a l = none := by
  induction l with
  | nil => rfl
  | cons x xs ih =>
    have hx : ¬x.1 = a := h x (List.mem_cons_self x xs)
    have : (a == x.1) = false := by
      simp
      exact fun he => hx he.symm
    obtain ⟨k, v⟩ := x
    simp only [List.lookup, this]
    exact ih (fun kv hkv => h kv (List.mem_cons_of_mem _ hkv))

/-- A successful person-variable stage on the literal persons section means
the section is a mapping and the returned ids are its keys. -/
theorem personVarStage_ok_keys {av : List String} {sit : List (String × JsonVal)}
    {pk errs : List String}
    (h : personVarStage av (lookupD sit "persons" (.obj [])) = .ok (pk, errs)) :
    pk = personKeysOf sit := by
  unfold personKeysOf
  cases hp : lookupD sit "persons" (.obj []) with
  | obj kvs =>
    rw [hp] at h
    simp only [personVarStage] at h
    cases hc : collectM (fun kv => personErrors av kv.1 kv.2) kvs with
    | error msg => rw [hc] at h; exact absurd h (by simp)
    | ok errs' => rw [hc] at h; simp at h; exact h.1.symm
  | null => rw [hp] at h; exact absurd h (by simp [personVarStage])
  | bool b => rw [hp] at h; exact absurd h (by simp [personVarStage])
  | num n => rw [hp] at h; exact absurd h (by simp [personVarStage])
  | str s => rw [hp] at h; exact absurd h (by simp [personVarStage])
  | list items => rw [hp] at h; exact absurd h (by simp [personVarStage])

/-- A successful role-element loop produces exactly the dangling list. -/
theorem collectM_checkRoleElem_eq {pks : List String} {ep iid k : String}
    {items : List JsonVal} {l : List String}
    (h : collectM (checkRoleElem pks ep iid k) items = .ok l) :
    l = danglingList pks ep iid k items := by
  induction items generalizing l with
  | nil =>
    unfold collectM at h
    simp at h
    subst h
    rfl
  | cons x xs ih =>
    obtain ⟨e, rest, hfx, hrest, hl⟩ := collectM_cons_ok h
    subst hl
    rw [ih hrest]
    cases x with
    | str s =>
      simp only [checkRoleElem, Except.ok.injEq] at hfx
      subst hfx
      by_cases hs : s ∈ pks
      · simp [danglingList, hs]
      · simp [danglingList, hs]
    | num n =>
      simp only [checkRoleElem, Except.ok.injEq] at hfx
      subst hfx
      simp [danglingList]
    | bool b =>
      simp only [checkRoleElem, Except.ok.injEq] at hfx
      subst hfx
      simp [danglingList]
    | null =>
      simp only [checkRoleElem, Except.ok.injEq] at hfx
      subst hfx
      simp [danglingList]
    | list its => simp [checkRoleElem] at hfx
    | obj fs => simp [checkRoleElem] at hfx

/-! ## The stages cannot raise on well-formed input -/

theorem checkVarName_ok_of_hashable {av : List String} {pid : String} {v : JsonVal}
    (h : hashable v = true) : ∃ e, checkVarName av pid v = .ok e := by
  cases v with
  | str s => exact ⟨_, rfl⟩
  | num n => exact ⟨_, rfl⟩
  | bool b => exact ⟨_, rfl⟩
  | null => exact ⟨_, rfl⟩
  | list items => simp [hashable] at h
  | obj fields => simp [hashable] at h

theorem personVarNames_of_wf {pdata : JsonVal} (h : wfPersonData pdata = true) :
    ∃ names, personVarNames pdata = .ok names ∧ ∀ n ∈ names, hashable n = true := by
  cases pdata with
  | obj kvs =>
    refine ⟨_, rfl, ?_⟩
    intro n hn
    rw [List.mem_map] at hn
    obtain ⟨kv, -, hnv⟩ := hn
    rw [← hnv]
    rfl
  | list items =>
    refine ⟨items, rfl, ?_⟩
    simp [wfPersonData, List.all_eq_true] at h
    exact h
  | str s =>
    refine ⟨_, rfl, ?_⟩
    intro n hn
    rw [List.mem_map] at hn
    obtain ⟨c, -, hnv⟩ := hn
    rw [← hnv]
    rfl
  | null => simp [wfPersonData] at h
  | bool b => simp [wfPersonData] at h
  | num n => simp [wfPersonData] at h

theorem personErrors_ok_of_wf {av : List String} {pid : String} {pdata : JsonVal}
    (h : wfPersonData pdata = true) : ∃ e, personErrors av pid pdata = .ok e := by
  obtain ⟨names, hn, hall⟩ := personVarNames_of_wf h
  unfold personErrors
  rw [hn]
  exact collectM_ok_of_forall (fun n hmem => checkVarName_ok_of_hashable (hall n hmem))

theorem personVarStage_ok_of_wf {av : List String} {kvs : List (String × JsonVal)}
    (h : ∀ kv ∈ kvs, wfPersonData kv.2 = true) :
    ∃ pk errs, personVarStage av (.obj kvs) = .ok (pk, errs) := by
  obtain ⟨l, hl⟩ :=
    @collectM_ok_of_forall (String × JsonVal) String
      (fun kv => personErrors av kv.1 kv.2) kvs
      (fun kv hkv => personErrors_ok_of_wf (h kv hkv))
  exact ⟨kvs.map Prod.fst, l, by simp [personVarStage, hl]⟩

theorem rolePlurals_ok_of_wf {descriptors : List JsonVal}
    (h : wfDescriptors descriptors = true) : ∃ pls, rolePlurals descriptors = .ok pls := by
  cases descriptors with
  | nil => exact ⟨[], rfl⟩
  | cons r0 rest =>
    cases hr0 : r0 with
    | obj fs =>
      rw [hr0] at h
      simp only [wfDescriptors, List.all_eq_true] at h
      apply collectM_ok_of_forall
      intro r hr
      have hwf : wfDescriptor r = true := h r (hr0 ▸ hr)
      cases r with
      | obj kvs =>
        simp only [wfDescriptor] at hwf
        cases hk : List.lookup "key" kvs with
        | none => rw [hk] at hwf; dsimp only at hwf; cases hwf
        | some dflt =>
          rw [hk] at hwf
          dsimp only at hwf
          cases hp : List.lookup "plural" kvs with
          | some v =>
            rw [hp] at hwf
            dsimp only at hwf
            exact ⟨[v], by simp [descriptorPlural, hk, hp, hwf]⟩
          | none =>
            rw [hp] at hwf
            dsimp only at hwf
            exact ⟨[dflt], by simp [descriptorPlural, hk, hp, hwf]⟩
      | null => simp [wfDescriptor] at hwf
      | bool b => simp [wfDescriptor] at hwf
      | num n => simp [wfDescriptor] at hwf
      | str s => simp [wfDescriptor] at hwf
      | list its => simp [wfDescriptor] at hwf
    | null => exact ⟨[], by simp [rolePlurals, hr0]⟩
    | bool b => exact ⟨[], by simp [rolePlurals, hr0]⟩
    | num n => exact ⟨[], by simp [rolePlurals, hr0]⟩
    | str s => exact ⟨[], by simp [rolePlurals, hr0]⟩
    | list its => exact ⟨[], by simp [rolePlurals, hr0]⟩

theorem checkRoleElem_ok_of_hashable {pks : List String} {ep iid k : String} {v : JsonVal}
    (h : hashable v = true) : ∃ e, checkRoleElem pks ep iid k v = .ok e := by
  cases v with
  | str s => exact ⟨_, rfl⟩
  | num n => exact ⟨_, rfl⟩
  | bool b => exact ⟨_, rfl⟩
  | null => exact ⟨_, rfl⟩
  | list items => simp [hashable] at h
  | obj fields => simp [hashable] at h

theorem instanceKeyErrors_ok_of_wf {av pks rks : List String} {pls : List JsonVal}
    {ep iid k : String} {v : JsonVal} (h : wfValue v = true) :
    ∃ e, instanceKeyErrors av pks rks pls ep iid k v = .ok e := by
  unfold instanceKeyErrors
  by_cases hrk : roleKeyMatch rks pls k
  · rw [if_pos hrk]
    cases v with
    | list items =>
      simp only [wfValue, List.all_eq_true] at h
      exact collectM_ok_of_forall (fun x hx => checkRoleElem_ok_of_hashable (h x hx))
    | null => exact ⟨[], rfl⟩
    | bool b => exact ⟨[], rfl⟩
    | num n => exact ⟨[], rfl⟩
    | str s => exact ⟨[], rfl⟩
    | obj fs => exact ⟨[], rfl⟩
  · rw [if_neg hrk]
    by_cases hkv : k ∈ av
    · exact ⟨[], by simp [hkv]⟩
    · exact ⟨[unknownGroupVarMsg k ep iid], by simp [hkv]⟩

theorem instanceErrors_ok_of_wf {av pks : List String} {roles : List (String × JsonVal)}
    {ep iid : String} {idata : JsonVal}
    (hd : wfDescriptors (roles.map Prod.snd) = true) (hi : wfInstance idata = true) :
    ∃ e, instanceErrors av pks roles ep iid idata = .ok e := by
  obtain ⟨pls, hpls⟩ := rolePlurals_ok_of_wf hd
  unfold instanceErrors
  rw [hpls]
  cases idata with
  | obj kvs =>
    simp only [wfInstance, List.all_eq_true] at hi
    exact collectM_ok_of_forall (fun kv hkv => instanceKeyErrors_ok_of_wf (hi kv hkv))
  | null => simp [wfInstance] at hi
  | bool b => simp [wfInstance] at hi
  | num n => simp [wfInstance] at hi
  | str s => simp [wfInstance] at hi
  | list its => simp [wfInstance] at hi

theorem groupEntityErrors_ok_of_wf {av pks : List String} {ep : String}
    {roles : List (String × JsonVal)} {sit : List (String × JsonVal)}
    (hd : wfDescriptors (roles.map Prod.snd) = true)
    (hs : wfGroupSection (lookupD sit ep (.obj [])) = true) :
    ∃ e, groupEntityErrors av pks ep roles sit = .ok e := by
  unfold groupEntityErrors
  cases hsec : lookupD sit ep (.obj []) with
  | obj instances =>
    rw [hsec] at hs
    simp only [wfGroupSection, List.all_eq_true] at hs
    exact collectM_ok_of_forall (fun inst hinst => instanceErrors_ok_of_wf hd (hs inst hinst))
  | null => rw [hsec] at hs; simp [wfGroupSection] at hs
  | bool b => rw [hsec] at hs; simp [wfGroupSection] at hs
  | num n => rw [hsec] at hs; simp [wfGroupSection] at hs
  | str s => rw [hsec] at hs; simp [wfGroupSection] at hs
  | list its => rw [hsec] at hs; simp [wfGroupSection] at hs

theorem groupStage_ok_of_wf {ents : List (String × EntityInfo)} {av pks : List String}
    {sit : List (String × JsonVal)}
    (h : ∀ ent ∈ ents, (match ent.2.roles with
      | none => true
      | some roles =>
          wfDescriptors (roles.map Prod.snd) &&
          wfGroupSection (lookupD sit ent.2.plural (.obj []))) = true) :
    ∃ e, groupStage ents av pks sit = .ok e := by
  apply collectM_ok_of_forall
  intro ent hent
  have hw := h ent hent
  cases hr : ent.2.roles with
  | none => exact ⟨[], by simp only [hr]⟩
  | some roles =>
    rw [hr] at hw
    simp only [Bool.and_eq_true] at hw
    obtain ⟨e, he⟩ := @groupEntityErrors_ok_of_wf av pks ent.2.plural roles sit hw.1 hw.2
    exact ⟨e, by simp only [hr]; exact he⟩

/-- On a well-formed situation the checks complete without raising. -/
theorem situationChecks_ok_of_wf {ents : List (String × EntityInfo)} {av : List String}
    {sit : List (String × JsonVal)} (h : wellFormedSituation ents sit = true) :
    ∃ out, situationChecks ents av sit = .ok out := by
  simp only [wellFormedSituation, Bool.and_eq_true] at h
  obtain ⟨⟨-, hpers⟩, hents⟩ := h
  have hents' : ∀ ent ∈ ents, (match ent.2.roles with
      | none => true
      | some roles =>
          wfDescriptors (roles.map Prod.snd) &&
          wfGroupSection (lookupD sit ent.2.plural (.obj []))) = true := by
    rw [List.all_eq_true] at hents
    exact hents
  cases hp : lookupD sit "persons" (.obj []) with
  | obj kvs =>
    rw [hp] at hpers
    rw [List.all_eq_true] at hpers
    obtain ⟨pk, errs3, hps⟩ := @personVarStage_ok_of_wf av kvs hpers
    obtain ⟨errs4, hgs⟩ := @groupStage_ok_of_wf ents av pk sit hents'
    simp only [situationChecks, hp, hps, hgs]
    by_cases he : (topLevelErrors (validTopLevelKeys ents) (sit.map Prod.fst)
        ++ (if pyTruthy (JsonVal.obj kvs) then [] else [personRequiredMsg])
        ++ errs3 ++ errs4).isEmpty
    · exact ⟨_, by rw [if_pos he]⟩
    · exact ⟨_, by rw [if_neg he]⟩
  | null => rw [hp] at hpers; cases hpers
  | bool b => rw [hp] at hpers; cases hpers
  | num n => rw [hp] at hpers; cases hpers
  | str s => rw [hp] at hpers; cases hpers
  | list its => rw [hp] at hpers; cases hpers

/-! ## The claims -/

/-- C5: for every upstream error body whose "error" key maps to a string X,
the normalizer returns, with status 404, a not_found-kind Tool Error with
status code 404 and message X, and, with any other status, a
validation-kind Tool Error with status code 400 and message X. -/
theorem claim_C5 (body : List (String × JsonVal)) (status : Nat) (x : String)
    (h : List.lookup "error" body = some (.str x)) :
    (status = 404 → format_api_error body status =
      ⟨"not_found_error", x, 404, [], []⟩) ∧
    (status ≠ 404 → format_api_error body status =
      ⟨"validation_error", x, 400, [], []⟩) := by
  constructor
  · intro hs
    subst hs
    simp [format_api_error, h, NotFoundError]
  · intro hs
    have hb : (status == 404) = false := by simp [hs]
    simp [format_api_error, h, hb, ValidationError]

theorem claim_C5_witness :
    format_api_error [("error", .str "Variable not found")] 404 =
      ⟨"not_found_error", "Variable not found", 404, [], []⟩ ∧
    format_api_error [("error", .str "bad input")] 400 =
      ⟨"validation_error", "bad input", 400, [], []⟩ :=
  ⟨(claim_C5 [("error", .str "Variable not found")] 404 "Variable not found" rfl).1 rfl,
   (claim_C5 [("error", .str "bad input")] 400 "bad input" rfl).2 (by decide)⟩

/-- C6: for every upstream error body keyed by field paths (every key
contains a path separator, so the simple shape does not match), the
normalizer returns a validation-kind Tool Error whose details.field_errors
equals the input mapping and whose message is built from the first key in
iteration order as "Validation error at <path>: <message>". -/
theorem claim_C6 (body : List (String × JsonVal)) (status : Nat)
    (p : String) (v : JsonVal) (rest : List (String × JsonVal))
    (hb : body = (p, v) :: rest)
    (hall : ∀ kv ∈ body, hasSlash kv.1 = true) :
    format_api_error body status =
      ⟨"validation_error",
       "Validation error at " ++ p ++ ": " ++ pyStr v,
       400,
       [("field_errors", .obj body)],
       ["Check the field path and value format"]⟩ := by
  have hne : List.lookup "error" body = none := by
    apply lookup_eq_none_of_keys
    intro kv hkv he
    have := hall kv hkv
    rw [he] at this
    exact absurd this (by decide)
  have hfe : body.filter (fun kv => hasSlash kv.1 || !(kv.1 == "error")) = body := by
    rw [List.filter_eq_self]
    intro kv hkv
    simp [hall kv hkv]
  unfold format_api_error
  rw [hne]
  dsimp only
  rw [hfe, hb]
  simp [ValidationError, hb]

theorem claim_C6_witness :
    format_api_error [("persons/alice/salary", .str "bad value")] 400 =
      ⟨"validation_error",
       "Validation error at persons/alice/salary: bad value",
       400,
       [("field_errors", .obj [("persons/alice/salary", .str "bad value")])],
       ["Check the field path and value format"]⟩ :=
  claim_C6 [("persons/alice/salary", .str "bad value")] 400
    "persons/alice/salary" (.str "bad value") [] rfl
    (by intro kv hkv; simp at hkv; subst hkv; decide)

/-- C8: serializing any Tool Error to the fixed nested shape
`{error: {type, code, message, details, suggestions}}` and reading the five
fields back recovers the kind, code, message, details and suggestions
exactly — the serialization is total and lossless. -/
theorem claim_C8 (e : MCPError) : fromDict (MCPError.to_dict e) = some e := by
  obtain ⟨t, m, c, det, sugg⟩ := e
  calc fromDict (MCPError.to_dict ⟨t, m, c, det, sugg⟩)
      = (readStrList (sugg.map .str)).map
          (fun sl => ⟨t, m, c, det, sl⟩ : List String → MCPError) := rfl
    _ = some ⟨t, m, c, det, sugg⟩ := by rw [readStrList_map]; rfl

/-- C9: every transport-client operation, when its single HTTP attempt fails
with a connectivity failure, raises a connection-kind Tool Error with status
code 503 whose details contain the target base address and the underlying
cause, and whose suggestions default to the single suggestion to verify the
engine is running. -/
theorem claim_C9 (baseUrl cause vid pid : String) (sit : JsonVal) :
    get_entities baseUrl (.connectError cause) = .mcpError (connectionFailure baseUrl cause) ∧
    get_variables baseUrl (.connectError cause) = .mcpError (connectionFailure baseUrl cause) ∧
    get_variable baseUrl vid (.connectError cause) = .mcpError (connectionFailure baseUrl cause) ∧
    get_parameters baseUrl (.connectError cause) = .mcpError (connectionFailure baseUrl cause) ∧
    get_parameter baseUrl pid (.connectError cause) = .mcpError (connectionFailure baseUrl cause) ∧
    client_calculate baseUrl sit (.connectError cause) = .mcpError (connectionFailure baseUrl cause) ∧
    client_trace baseUrl sit (.connectError cause) = .mcpError (connectionFailure baseUrl cause) ∧
    (connectionFailure baseUrl cause).error_type = "connection_error" ∧
    (connectionFailure baseUrl cause).code = 503 ∧
    (connectionFailure baseUrl cause).message = cannotConnectMsg baseUrl ∧
    ("url", .str baseUrl) ∈ (connectionFailure baseUrl cause).details ∧
    ("error", .str cause) ∈ (connectionFailure baseUrl cause).details ∧
    (connectionFailure baseUrl cause).suggestions =
      ["Check that the OpenFisca server is running"] := by
  refine ⟨rfl, rfl, rfl, rfl, rfl, rfl, rfl, rfl, rfl, rfl, ?_, ?_, rfl⟩
  · simp [connectionFailure, ConnectionError]
  · simp [connectionFailure, ConnectionError]

/-- C10: each of calculate, trace_calculation and validate_situation, given
an empty situation mapping, raises a validation-kind Tool Error with message
"Situation is required" and status code 400 before issuing any request to
the rule engine (the issued-request list is empty, whatever the engine
would have answered). -/
theorem claim_C10 (engineResult traceResult : PyResult JsonVal)
    (entitiesResult : PyResult (List (String × EntityInfo)))
    (varsResult : PyResult (List String)) :
    handle_calculate [] engineResult = (.mcpError situationRequiredError, []) ∧
    handle_trace_calculation [] traceResult = (.mcpError situationRequiredError, []) ∧
    handle_validate_situation [] entitiesResult varsResult =
      (.mcpError situationRequiredError, []) ∧
    situationRequiredError.error_type = "validation_error" ∧
    situationRequiredError.code = 400 ∧
    situationRequiredError.message = "Situation is required" :=
  ⟨rfl, rfl, rfl, rfl, rfl, rfl⟩

/-- C7 counterexample: the dispatcher's unknown-tool error message carries
the tool name without quotes — `"Unknown tool: frobnicate"`, not the
claimed `"Unknown tool: 'frobnicate'"`. -/
theorem claim_C7_counterexample :
    call_tool "frobnicate" [] (fun _ => .ok .null) =
      MCPError.to_dict ⟨"validation_error", "Unknown tool: frobnicate", 400, [], []⟩ ∧
    "Unknown tool: frobnicate" ≠ "Unknown tool: 'frobnicate'" :=
  ⟨rfl, by decide⟩

/-- C7 amended: every tool call terminates with exactly one rendered
payload — the success rendering, or the raised taxonomy error's
serialization unmodified, or, for any other exception, the serialization of
an internal-kind error with the original message and status 500; a name
matching no handler yields a validation-kind error (code 400) with message
"Unknown tool: <name>" (no quotes around the name). -/
theorem claim_C7_amended (name : String) (arguments : List (String × JsonVal))
    (run : HandlerInv → PyResult JsonVal) :
    (∀ v, tryInvoke name arguments run = .ok v →
      call_tool name arguments run = format_result v) ∧
    (∀ e, tryInvoke name arguments run = .mcpError e →
      call_tool name arguments run = format_error e) ∧
    (∀ m, tryInvoke name arguments run = .pyExc m →
      call_tool name arguments run = format_error ⟨"internal_error", m, 500, [], []⟩) ∧
    (name ∉ toolNames →
      tryInvoke name arguments run =
        .mcpError (ValidationError ("Unknown tool: " ++ name) none none) ∧
      (ValidationError ("Unknown tool: " ++ name) none none).error_type =
        "validation_error" ∧
      (ValidationError ("Unknown tool: " ++ name) none none).code = 400) := by
  refine ⟨?_, ?_, ?_, ?_⟩
  · intro v h; simp [call_tool, h]
  · intro e h; simp [call_tool, h]
  · intro m h; simp [call_tool, h]
  · intro hn
    simp only [toolNames, List.mem_cons, List.mem_singleton, not_or] at hn
    obtain ⟨h1, h2, h3, h4, h5, h6, h7, h8, h9⟩ := hn
    refine ⟨?_, rfl, rfl⟩
    simp only [tryInvoke, beq_iff_eq, h1, h2, h3, h4, h5, h6, h7, h8, h9,
      if_false]

theorem claim_C7_witness :
    call_tool "calculate" [] (fun _ => .ok .null) =
      format_error ⟨"internal_error", "'situation'", 500, [], []⟩ ∧
    call_tool "explain_result" [] (fun _ => .ok .null) =
      format_error (ValidationError ("Unknown tool: " ++ "explain_result") none none) := by
  constructor
  · exact (claim_C7_amended "calculate" [] (fun _ => .ok .null)).2.2.1 "'situation'" rfl
  · exact (claim_C7_amended "explain_result" [] (fun _ => .ok .null)).2.1 _
      ((claim_C7_amended "explain_result" [] (fun _ => .ok .null)).2.2.2 (by decide)).1

/-- C1 counterexample: with a schema whose individual entity is pluralized
"people", and a situation whose individual-entity section (under "people")
is absent but which has a truthy entry under the literal key "persons", the
validator does not report "At least one person must be defined" — the
presence check reads the literal key, not the schema's individual plural. -/
theorem claim_C1_counterexample :
    situationChecks [("person", ⟨"people", none⟩)] ["salary"]
      [("persons", .obj [("x", .obj [])])] =
      .ok (.invalid [unknownEntityMsg "persons"] []) ∧
    List.lookup "people" [("persons", JsonVal.obj [("x", .obj [])])] = none ∧
    personRequiredMsg ∉ [unknownEntityMsg "persons"] :=
  ⟨rfl, rfl, by decide⟩

/-- C1 amended: the presence check is performed against the literal
top-level key "persons": whenever the situation's "persons" entry is absent
or Python-falsy and the checks return without raising, the error list
contains exactly the message "At least one person must be defined",
whatever plural name the schema gives its individual entity. -/
theorem claim_C1_amended (ents : List (String × EntityInfo)) (av : List String)
    (sit : List (String × JsonVal)) (out : ValOut)
    (hok : situationChecks ents av sit = .ok out)
    (hfalsy : pyTruthy (lookupD sit "persons" (.obj [])) = false) :
    personRequiredMsg ∈ resultErrors out := by
  obtain ⟨pk, errs3, errs4, hps, hgs, herr⟩ := situationChecks_ok_errors hok
  rw [herr, hfalsy]
  simp

theorem claim_C1_witness :
    personRequiredMsg ∈ resultErrors (.invalid [personRequiredMsg] []) :=
  claim_C1_amended [("person", ⟨"persons", none⟩)] [] [("persons", .obj [])]
    (.invalid [personRequiredMsg] []) rfl rfl

/-- C3 counterexample: the claim is universal over situations and schemas,
but on the situation with top-level keys "companies" and "persons" mapped
to the number 5, the checks raise (`persons.items()` on an int) instead of
returning an error list, so the promised "Unknown entity type: 'companies'"
is never produced although "companies" is a top-level key outside the
accepted set. -/
theorem claim_C3_counterexample :
    situationChecks [("person", ⟨"persons", none⟩)] ["salary"]
      [("companies", .obj []), ("persons", .num 5)] =
      .error "AttributeError: 'int' object has no attribute 'items'" ∧
    "companies" ∈ List.map Prod.fst
      [("companies", JsonVal.obj []), ("persons", JsonVal.num 5)] ∧
    "companies" ∉ validTopLevelKeys [("person", ⟨"persons", none⟩)] :=
  ⟨rfl, by decide, by decide⟩

/-- C3 amended: on every situation and entity schema on which the checks
return (do not raise), the set of accepted top-level keys is exactly the
union of every entity's plural form and every entity's own key: the error
"Unknown entity type: '<k>'" is reported precisely for the top-level keys
k outside that union. -/
theorem claim_C3_amended (ents : List (String × EntityInfo)) (av : List String)
    (sit : List (String × JsonVal)) (out : ValOut) (k : String)
    (hok : situationChecks ents av sit = .ok out) :
    unknownEntityMsg k ∈ resultErrors out ↔
      k ∈ sit.map Prod.fst ∧ k ∉ validTopLevelKeys ents := by
  obtain ⟨pk, errs3, errs4, hps, hgs, herr⟩ := situationChecks_ok_errors hok
  rw [herr]
  constructor
  · intro hm
    rcases List.mem_append.mp hm with hm3 | hm4
    · rcases List.mem_append.mp hm3 with hm2 | hm3'
      · rcases List.mem_append.mp hm2 with hm1 | hm2'
        · obtain ⟨k', hk', hkv', heq⟩ := mem_topLevelErrors.mp hm1
          exact uem_inj heq ▸ ⟨hk', hkv'⟩
        · by_cases hp : pyTruthy (lookupD sit "persons" (.obj []))
          · rw [if_pos hp] at hm2'; cases hm2'
          · rw [if_neg hp] at hm2'
            simp at hm2'
            exact absurd hm2' (uem_ne_prm k)
      · obtain ⟨vn, pid, heq⟩ := personVarStage_shape hps hm3'
        exact absurd heq (uem_ne_upvm k vn pid)
    · rcases groupStage_shape hgs hm4 with ⟨p, ep, iid, kk, heq⟩ | ⟨kk, ep, iid, heq⟩
      · exact absurd heq (uem_ne_dm k p ep iid kk)
      · exact absurd heq (uem_ne_ugvm k kk ep iid)
  · rintro ⟨hk, hkv⟩
    exact List.mem_append.mpr (.inl (List.mem_append.mpr (.inl (List.mem_append.mpr
      (.inl (mem_topLevelErrors.mpr ⟨k, hk, hkv, rfl⟩))))))

theorem claim_C3_witness :
    unknownEntityMsg "companies" ∈
      resultErrors (.invalid [unknownEntityMsg "companies"] []) :=
  (claim_C3_amended [("person", ⟨"persons", none⟩)] []
      [("persons", .obj [("a", .obj [])]), ("companies", .obj [])]
      (.invalid [unknownEntityMsg "companies"] []) "companies" rfl).mpr
    ⟨by simp, by decide⟩

/-- C2 counterexample: with a schema whose individual entity is pluralized
"people", the id "alice" is defined among the individual-entity instances
(the "people" section), yet the validator still reports her reference as
dangling — the reference check compares against the literal "persons" key,
so the claimed "one error per referenced id not defined among the
individual-entity instances" (zero here) is violated. -/
theorem claim_C2_counterexample :
    situationChecks
      [("person", ⟨"people", none⟩),
       ("household", ⟨"households", some [("adult", .obj [("plural", .str "adults"), ("key", .str "adult")])]⟩)]
      ["salary"]
      [("people", .obj [("alice", .obj [])]),
       ("households", .obj [("h1", .obj [("adults", .list [.str "alice"])])])] =
      .ok (.invalid
        [personRequiredMsg, danglingMsg "alice" "households" "h1" "adults"] []) ∧
    List.lookup "people"
      [("people", JsonVal.obj [("alice", .obj [])]),
       ("households", .obj [("h1", .obj [("adults", .list [.str "alice"])])])] =
      some (.obj [("alice", .obj [])]) :=
  ⟨rfl, rfl⟩

/-- C2 amended: for every situation and schema on which the checks return,
every group-entity instance, and every role assignment in it (a key that is
a role key or a detected role plural) whose value is a list, the result's
error list contains, in order and with multiplicity, one error per
referenced id that is not a key of the situation's literal top-level
"persons" entry, each of the form
"Person '<id>' in <entity_plural>/<instance_id>/<key> is not defined in persons". -/
theorem claim_C2_amended
    (ents : List (String × EntityInfo)) (av : List String)
    (sit : List (String × JsonVal)) (out : ValOut)
    (ekey : String) (einfo : EntityInfo) (roles : List (String × JsonVal))
    (instances : List (String × JsonVal)) (iid : String) (kvs : List (String × JsonVal))
    (k : String) (items : List JsonVal) (pls : List JsonVal)
    (hok : situationChecks ents av sit = .ok out)
    (hent : (ekey, einfo) ∈ ents)
    (hroles : einfo.roles = some roles)
    (hsec : lookupD sit einfo.plural (.obj []) = .obj instances)
    (hinst : (iid, JsonVal.obj kvs) ∈ instances)
    (hkey : (k, JsonVal.list items) ∈ kvs)
    (hpl : rolePlurals (roles.map Prod.snd) = .ok pls)
    (hrole : roleKeyMatch (roles.map Prod.fst) pls k = true) :
    List.Sublist (danglingList (personKeysOf sit) einfo.plural iid k items)
      (resultErrors out) := by
  obtain ⟨pk, errs3, errs4, hps, hgs, herr⟩ := situationChecks_ok_errors hok
  have hpk : pk = personKeysOf sit := personVarStage_ok_keys hps
  subst hpk
  unfold groupStage at hgs
  obtain ⟨e1, he1, hsub1⟩ := collectM_mem_sublist hgs hent
  dsimp only at he1
  rw [hroles] at he1
  dsimp only at he1
  unfold groupEntityErrors at he1
  rw [hsec] at he1
  obtain ⟨e2, he2, hsub2⟩ := collectM_mem_sublist he1 hinst
  dsimp only at he2
  unfold instanceErrors at he2
  rw [hpl] at he2
  dsimp only at he2
  obtain ⟨e3, he3, hsub3⟩ := collectM_mem_sublist he2 hkey
  dsimp only at he3
  unfold instanceKeyErrors at he3
  rw [if_pos hrole] at he3
  dsimp only at he3
  have he3' := collectM_checkRoleElem_eq he3
  subst he3'
  have hfin : List.Sublist errs4 (resultErrors out) := by
    rw [herr]
    exact List.sublist_append_right _ errs4
  exact hsub3.trans (hsub2.trans (hsub1.trans hfin))

theorem claim_C2_witness :
    List.Sublist
      (danglingList
        (personKeysOf
          [("persons", .obj [("alice", .obj [])]),
           ("households", .obj [("h1", .obj [("adults", .list [.str "alice", .str "bob"])])])])
        "households" "h1" "adults" [.str "alice", .str "bob"])
      (resultErrors (.invalid [danglingMsg "bob" "households" "h1" "adults"] [])) :=
  claim_C2_amended
    [("person", ⟨"persons", none⟩),
     ("household", ⟨"households", some [("adult", .obj [("plural", .str "adults"), ("key", .str "adult")])]⟩)]
    ["salary"]
    [("persons", .obj [("alice", .obj [])]),
     ("households", .obj [("h1", .obj [("adults", .list [.str "alice", .str "bob"])])])]
    (.invalid [danglingMsg "bob" "households" "h1" "adults"] [])
    "household" ⟨"households", some [("adult", .obj [("plural", .str "adults"), ("key", .str "adult")])]⟩
    [("adult", .obj [("plural", .str "adults"), ("key", .str "adult")])]
    [("h1", .obj [("adults", .list [.str "alice", .str "bob"])])]
    "h1" [("adults", .list [.str "alice", .str "bob"])]
    "adults" [.str "alice", .str "bob"] [.str "adults"]
    rfl
    (List.mem_cons_of_mem _ (List.mem_cons_self _ _))
    rfl rfl
    (List.mem_cons_self _ _)
    (List.mem_cons_self _ _)
    rfl rfl

/-- C4 counterexample: a non-empty situation whose literal "persons" entry
is a list (a non-mapping body) makes `handle_validate_situation` raise an
`AttributeError` even after both schema fetches succeeded, instead of
returning the valid/invalid result shape. -/
theorem claim_C4_counterexample :
    handle_validate_situation [("persons", .list [.str "a"])]
      (.ok [("person", ⟨"persons", none⟩)]) (.ok ["salary"]) =
      (.pyExc "AttributeError: 'list' object has no attribute 'items'",
       [.entitiesCall, .variablesCall]) :=
  rfl

/-- C4 amended: once both schema fetches succeed, validate_situation
returns the fixed valid/invalid shape without raising, provided the
situation is well-formed: it is non-empty, its literal "persons" entry is a
mapping with iterable person bodies, each group-entity section and instance
body is a mapping, role-list elements are hashable, and every role
descriptor (when the first one is mapping-shaped and an instance exists) is
a mapping carrying a "key" field — evaluated eagerly as the `get` default,
so required even when "plural" is present — whose used value ("plural" when
present, else "key") is hashable. -/
theorem claim_C4_amended (ents : List (String × EntityInfo)) (av : List String)
    (sit : List (String × JsonVal)) (h : wellFormedSituation ents sit = true) :
    ∃ out, handle_validate_situation sit (.ok ents) (.ok av) =
      (.ok out, [.entitiesCall, .variablesCall]) := by
  obtain ⟨out, hout⟩ := @situationChecks_ok_of_wf ents av sit h
  have htrue : pyTruthy (.obj sit) = true := by
    simp only [wellFormedSituation, Bool.and_eq_true] at h
    exact h.1.1
  refine ⟨out, ?_⟩
  unfold handle_validate_situation
  rw [htrue]
  dsimp only
  rw [hout]
  simp

theorem claim_C4_witness :
    ∃ out, handle_validate_situation
      [("persons", .obj [("alice", .obj [("salary", .obj [("2024-01", .num 3000)])])]),
       ("households", .obj [("h1", .obj [("adults", .list [.str "alice"])])])]
      (.ok [("person", ⟨"persons", none⟩),
            ("household", ⟨"households", some [("adult", .obj [("plural", .str "adults"), ("key", .str "adult")])]⟩)])
      (.ok ["salary"]) =
      (.ok out, [.entitiesCall, .variablesCall]) :=
  claim_C4_amended
    [("person", ⟨"persons", none⟩),
     ("household", ⟨"households", some [("adult", .obj [("plural", .str "adults"), ("key", .str "adult")])]⟩)]
    ["salary"]
    [("persons", .obj [("alice", .obj [("salary", .obj [("2024-01", .num 3000)])])]),
     ("households", .obj [("h1", .obj [("adults", .list [.str "alice"])])])]
    rfl

end OFMCP
